import Mathlib

/-!
# MicroFS inode layer (`kernel/inode.c`)

A shallow embedding of `mfs_iget`, `mfs_alloc_inode` and the four lifecycle
stubs of `kernel/inode.c`, with the kernel services they call (`iget_locked`,
`sb_bread`, `brelse`, `unlock_new_inode`, `printk`, the allocators) modelled as
explicit state passing over a `world`.

Conventions.
* A `struct inode *` handed around by the VFS always points at the `vfs_inode`
  member of a `struct mfs_inode_info`; the handle is modelled as the containing
  object itself, so `GET_MFS_INODE` (a `container_of`) is the identity.
* Objects live in the inode hash (`world.icache`); a store through a pointer is
  modelled by writing the updated object back with `icache_store`.
* Execution is sequential: a call that would sleep until another context
  changes an entry is reported as `kret.blocked`; `BUG()` is `kret.bug`.
* The attributes of the VFS inode and the fields of the on-disk record are
  machine integers of fixed width; a store converts the value to the width of
  its destination (`to_u16`, `to_u32`, `to_u64`, `to_s64`, `signed_cast`).
-/

namespace MicroFS

/-! ## Constants -/

/-- The constants of `mfs.h` that `inode.c` uses. The header is not among the
sources, so their values are parameters of the development; the only thing
assumed of them is that the range of inode numbers `MFS_ROOT_INODE ..
MFS_MAX_INODE` is not empty (it contains the root inode). -/
structure mfs_consts where
  MFS_ROOT_INODE : Nat
  MFS_MAX_INODE : Nat
  MFS_ILIST_START_BLOCK_NUM : Nat
  MFS_IBLOCK_COUNT : Nat
  root_le_max : MFS_ROOT_INODE ≤ MFS_MAX_INODE

/-- Error numbers of `errno-base.h`; `ERR_PTR(-e)` is `kret.err e`. -/
def ENOMEM : Nat := 12
def EINVAL : Nat := 22
def EIO : Nat := 5

/-- The `I_NEW` bit of `inode->i_state` (`1 << 3`, `linux/fs.h`). -/
def I_NEW : Nat := 8

/-- File type bits of `linux/stat.h` (octal, as in the header). -/
def S_IFMT : Nat := 0o170000
def S_IFSOCK : Nat := 0o140000
def S_IFLNK : Nat := 0o120000
def S_IFREG : Nat := 0o100000
def S_IFBLK : Nat := 0o060000
def S_IFDIR : Nat := 0o040000
def S_IFCHR : Nat := 0o020000
def S_IFIFO : Nat := 0o010000

/-- `S_ISDIR(m)` of `linux/stat.h`: the file type of mode `m` is directory. -/
def S_ISDIR (m : Nat) : Prop := m &&& S_IFMT = S_IFDIR

instance (m : Nat) : Decidable (S_ISDIR m) := inferInstanceAs (Decidable (_ = _))

/-! ## Data model -/

/-- A signed 32-bit word. -/
def s32 : Type := { v : Int // -(2 : Int) ^ 31 ≤ v ∧ v < (2 : Int) ^ 31 }

/-- An unsigned 16-bit integer; the kernel's `umode_t` (`unsigned short`). -/
def u16 : Type := { n : Nat // n < 2 ^ 16 }

/-- An unsigned 32-bit integer; a word of the disk layout, and the kernel's
`uid_t`, `gid_t` and `unsigned int`. -/
def u32 : Type := { n : Nat // n < 2 ^ 32 }

/-- An unsigned 64-bit integer; a double word of the disk layout, and the
kernel's `blkcnt_t`. -/
def u64 : Type := { n : Nat // n < 2 ^ 64 }

/-- A signed 64-bit integer; the kernel's `loff_t`. -/
def s64 : Type := { v : Int // -(2 : Int) ^ 63 ≤ v ∧ v < (2 : Int) ^ 63 }

/-- Conversion of an unsigned value to 16 bits: the low 16 bits are kept. -/
def to_u16 (n : Nat) : u16 := ⟨n % 2 ^ 16, Nat.mod_lt _ (by decide)⟩

/-- Conversion of an unsigned value to 32 bits. -/
def to_u32 (n : Nat) : u32 := ⟨n % 2 ^ 32, Nat.mod_lt _ (by decide)⟩

/-- Conversion of an unsigned value to 64 bits. -/
def to_u64 (n : Nat) : u64 := ⟨n % 2 ^ 64, Nat.mod_lt _ (by decide)⟩

/-- Conversion of an integer value to signed 64 bits: reduction modulo `2^64`
into `[-2^63, 2^63)`. -/
def to_s64 (x : Int) : s64 :=
  ⟨(x + 2 ^ 63) % 2 ^ 64 - 2 ^ 63, by constructor <;> omega⟩

/-- The C conversion `(signed)x` of an integer value to `signed int`:
reduction modulo `2^32` into `[-2^31, 2^31)`. -/
def signed_cast (x : Int) : Int := (x + 2 ^ 31) % 2 ^ 32 - 2 ^ 31

/-- Modelled from the spec: `struct mfs_inode`, the on-disk inode record, is
declared in `mfs.h`, which is not among the sources. The fields are the ones
`mfs_iget` reads, with the widths of the record layout of the specification:
mode, user id, group id, link count and block count are unsigned words, the
three timestamps are signed words holding seconds, and the size, given as
"word/double-word", is an unsigned double word (which holds every word value
too). `mi_blk_add` is the array of `MFS_IBLOCK_COUNT` block addresses, indexed
from zero. -/
structure mfs_inode where
  mi_mode : u32
  mi_uid : u32
  mi_gid : u32
  mi_links_count : u32
  mi_size : u64
  mi_atime : s32
  mi_ctime : s32
  mi_mtime : s32
  mi_blocks : u32
  mi_blk_add : Nat → Nat

/-- A kernel `struct timespec64`. -/
structure timespec where
  tv_sec : Int
  tv_nsec : Int

/-- The `file_operations` tables an inode of this file system can point at:
the VFS default installed by `inode_init_always`, or `mfs_dir_ops`. -/
inductive file_operations where
  | no_open_fops
  | mfs_dir_ops
  deriving DecidableEq, Repr

/-- The `inode_operations` tables: the VFS default or `mfs_dir_inops`. -/
inductive inode_operations where
  | empty_iops
  | mfs_dir_inops
  deriving DecidableEq, Repr

/-- The fields of the VFS `struct inode` that `inode.c` and `iget_locked`
touch, the attributes with the widths of `linux/fs.h`: `i_mode` is a `umode_t`
(16 bits), `i_uid` and `i_gid` hold a 32-bit id, `i_nlink` is an
`unsigned int`, `i_size` a `loff_t` (signed, 64 bits) and `i_blocks` a
`blkcnt_t` (64 bits). `i_private` records whether the pointer is non-NULL. -/
structure inode where
  i_ino : Nat
  i_state : Nat
  i_count : Nat
  i_mode : u16
  i_uid : u32
  i_gid : u32
  i_nlink : u32
  i_size : s64
  i_atime : timespec
  i_ctime : timespec
  i_mtime : timespec
  i_blocks : u64
  i_private : Bool
  i_fop : file_operations
  i_op : inode_operations

/-- The in-memory inode of MicroFS, `struct mfs_inode_info`: the block address
array followed by the embedded VFS inode. -/
structure mfs_inode_info where
  mi_blk_add : Nat → Nat
  vfs_inode : inode

/-- Recovers the `mfs_inode_info` from the pointer to its `vfs_inode` member
(`container_of`). Handles are modelled as the containing object. -/
def GET_MFS_INODE (inode : mfs_inode_info) : mfs_inode_info := inode

/-- A buffer head returned by `sb_bread`: the block number and the block's
data viewed as an array of `struct mfs_inode` (`(struct mfs_inode *) b_data`). -/
structure buffer_head where
  b_blocknr : Nat
  b_data : Nat → mfs_inode

/-- The functions of `inode.c` that log their own name through `__func__`. -/
inductive fn_name where
  | mfs_alloc_inode
  | mfs_destroy_inode
  | mfs_write_inode
  | mfs_drop_inode
  | mfs_evict_inode
  deriving DecidableEq, Repr

/-- The `printk` messages of `inode.c`. -/
inductive kmsg where
  | block_offset (block offset : Nat)
  | dir_ops_init
  | not_provided (fn : fn_name)
  deriving DecidableEq, Repr

/-- The state the inode layer runs against.
* `icache`: the hashed inodes of the super block, most recently added first;
* `slab`: the free objects of `mfs_inode_cachep`, with their stale contents;
* `heap`: how many further `kmalloc` calls succeed;
* `disk`: what `sb_bread` finds at each block (`none` is an I/O error);
* `reads`: the blocks passed to `sb_bread` so far, oldest first;
* `bufs`: buffer references obtained and not yet released;
* `klog`: the kernel log, oldest first. -/
structure world where
  icache : List mfs_inode_info
  slab : List mfs_inode_info
  heap : Nat
  disk : Nat → Option (Nat → mfs_inode)
  reads : List Nat
  bufs : Nat
  klog : List kmsg

/-- Outcome of a kernel entry point: a value, `ERR_PTR(-e)`, a sleep that no
other context ends, or `BUG()`. -/
inductive kret (α : Type) where
  | ok (a : α)
  | err (e : Nat)
  | blocked
  | bug

/-- What `iget_locked` hands back: an inode, `NULL`, or a sleep on an entry
that is still `I_NEW`. -/
inductive iget_res where
  | inode (p : mfs_inode_info)
  | null
  | sleeps

/-! ## Kernel services -/

def printk (w : world) (m : kmsg) : world :=
  { w with klog := w.klog ++ [m] }

/-- Takes the next free object of `mfs_inode_cachep`, or `NULL`. -/
def kmem_cache_alloc (w : world) : Option mfs_inode_info × world :=
  match w.slab with
  | [] => (none, w)
  | obj :: rest => (some obj, { w with slab := rest })

/-- Reports whether `kmalloc` returned a non-NULL pointer. -/
def kmalloc (w : world) : Bool × world :=
  (decide (0 < w.heap), { w with heap := w.heap - 1 })

/-- Reads one block of the device; the call is recorded in `reads`. -/
def sb_bread (w : world) (block : Nat) : Option buffer_head × world :=
  let w1 := { w with reads := w.reads ++ [block] }
  match w.disk block with
  | none => (none, w1)
  | some data => (some ⟨block, data⟩, { w1 with bufs := w1.bufs + 1 })

def brelse (w : world) (_bh : buffer_head) : world :=
  { w with bufs := w.bufs - 1 }

/-- First hashed inode with number `ino` (`find_inode_fast`). -/
def icache_find : List mfs_inode_info → Nat → Option mfs_inode_info
  | [], _ => none
  | e :: rest, ino => if e.vfs_inode.i_ino = ino then some e else icache_find rest ino

/-- Writes object `e` back to its place in the hash: the first entry with the
same inode number is replaced. -/
def icache_store : List mfs_inode_info → mfs_inode_info → List mfs_inode_info
  | [], _ => []
  | x :: rest, e =>
    if x.vfs_inode.i_ino = e.vfs_inode.i_ino then e :: rest else x :: icache_store rest e

/-- `i_uid_write(inode, uid)`; the argument is converted to `uid_t`. -/
def i_uid_write (p : mfs_inode_info) (uid : Nat) : mfs_inode_info :=
  { p with vfs_inode.i_uid := to_u32 uid }

/-- `i_gid_write(inode, gid)`; the argument is converted to `gid_t`. -/
def i_gid_write (p : mfs_inode_info) (gid : Nat) : mfs_inode_info :=
  { p with vfs_inode.i_gid := to_u32 gid }

/-- `set_nlink(inode, nlink)`; the argument is converted to `unsigned int`. -/
def set_nlink (p : mfs_inode_info) (nlink : Nat) : mfs_inode_info :=
  { p with vfs_inode.i_nlink := to_u32 nlink }

/-- Clears `I_NEW` in `i_state` (`i_state &= ~I_NEW`). -/
def unlock_new_inode (p : mfs_inode_info) : mfs_inode_info :=
  { p with vfs_inode.i_state := p.vfs_inode.i_state ^^^ (p.vfs_inode.i_state &&& I_NEW) }

/-- The part of `inode_init_always` that concerns the modelled fields. -/
def inode_init_always (p : mfs_inode_info) : mfs_inode_info :=
  { p with vfs_inode :=
      { p.vfs_inode with
        i_state := 0, i_count := 1, i_uid := to_u32 0, i_gid := to_u32 0,
        i_nlink := to_u32 1, i_size := to_s64 0, i_blocks := to_u64 0, i_private := false,
        i_fop := .no_open_fops, i_op := .empty_iops } }

/-! ## `inode.c` -/

/-- `mfs_alloc_inode`: logs, then takes an object from the slab. -/
def mfs_alloc_inode (w : world) : Option mfs_inode_info × world :=
  let w1 := printk w (.not_provided .mfs_alloc_inode)
  match kmem_cache_alloc w1 with
  | (none, w2) => (none, w2)
  | (some im_inode, w2) => (some im_inode, w2)

/-- The kernel's `iget_locked`. A hashed entry that is not `I_NEW` is returned
with its reference count raised; on an entry that is still `I_NEW` the caller
sleeps. With no entry, a new inode is obtained through `mfs_alloc_inode`
(the `alloc_inode` super operation), set up, marked `I_NEW` and hashed. -/
def iget_locked (w : world) (ino : Nat) : iget_res × world :=
  match icache_find w.icache ino with
  | some e =>
    if e.vfs_inode.i_state &&& I_NEW = 0 then
      let e1 : mfs_inode_info := { e with vfs_inode.i_count := e.vfs_inode.i_count + 1 }
      (.inode e1, { w with icache := icache_store w.icache e1 })
    else (.sleeps, w)
  | none =>
    match mfs_alloc_inode w with
    | (none, w1) => (.null, w1)
    | (some obj, w1) =>
      let e0 := inode_init_always obj
      let e1 : mfs_inode_info := { e0 with vfs_inode.i_ino := ino, vfs_inode.i_state := I_NEW }
      (.inode e1, { w1 with icache := e1 :: w1.icache })

/-- Block of the inode list that holds inode `ino` (`block` in `mfs_iget`). -/
def mfs_iget_block (K : mfs_consts) (ino : Nat) : Nat :=
  ino / 4 + K.MFS_ILIST_START_BLOCK_NUM

/-- Index of inode `ino` within its block (`offset` in `mfs_iget`). -/
def mfs_iget_offset (ino : Nat) : Nat := ino % 4

/-- The loop `for (i = 0; i < MFS_IBLOCK_COUNT; i++) dst[i] = src[i];`. -/
def copy_blk_add (count : Nat) (src dst : Nat → Nat) : Nat → Nat :=
  (List.range count).foldl (fun d i => fun j => if j = i then src i else d j) dst

/-- `mfs_iget`: get the inode from the cache, or a new one filled from the
device. Each store into an attribute of the VFS inode converts the value of
the record field to the type of the attribute. -/
def mfs_iget (K : mfs_consts) (w : world) (ino : Nat) : kret mfs_inode_info × world :=
  match iget_locked w ino with
  | (.sleeps, w1) => (.blocked, w1)
  | (.null, w1) => (.err ENOMEM, w1)
  | (.inode inode, w1) =>
    if inode.vfs_inode.i_state &&& I_NEW = 0 then (.ok inode, w1)
    else if ino < K.MFS_ROOT_INODE ∧ ino > K.MFS_MAX_INODE then (.err EINVAL, w1)
    else
      let minode_info := GET_MFS_INODE inode
      let block := mfs_iget_block K ino
      let offset := mfs_iget_offset ino
      let w2 := printk w1 (.block_offset block offset)
      match sb_bread w2 block with
      | (none, w3) => (.err EIO, w3)
      | (some bh, w3) =>
        let minode := bh.b_data offset
        let p : mfs_inode_info :=
          { minode_info with vfs_inode.i_mode := to_u16 minode.mi_mode.val }
        let p := i_uid_write p minode.mi_uid.val
        let p := i_gid_write p minode.mi_gid.val
        let p := set_nlink p minode.mi_links_count.val
        let p : mfs_inode_info := { p with vfs_inode.i_size := to_s64 minode.mi_size.val }
        let p : mfs_inode_info :=
          { p with vfs_inode.i_atime.tv_sec := signed_cast minode.mi_atime.val }
        let p : mfs_inode_info :=
          { p with vfs_inode.i_ctime.tv_sec := signed_cast minode.mi_ctime.val }
        let p : mfs_inode_info :=
          { p with vfs_inode.i_mtime.tv_sec := signed_cast minode.mi_mtime.val }
        let p : mfs_inode_info := { p with vfs_inode.i_blocks := to_u64 minode.mi_blocks.val }
        let (priv, w4) := kmalloc w3
        let p : mfs_inode_info := { p with vfs_inode.i_private := priv }
        let (p, w5) :=
          if p.vfs_inode.i_mode.val &&& S_IFDIR ≠ 0 then
            (({ p with vfs_inode.i_fop := .mfs_dir_ops, vfs_inode.i_op := .mfs_dir_inops }
                : mfs_inode_info),
              printk w4 .dir_ops_init)
          else (p, w4)
        let p : mfs_inode_info :=
          { p with mi_blk_add := copy_blk_add K.MFS_IBLOCK_COUNT minode.mi_blk_add p.mi_blk_add }
        let w6 := brelse w5 bh
        let p := unlock_new_inode p
        (.ok p, { w6 with icache := icache_store w6.icache p })

/-- `mfs_destroy_inode`: logs that no implementation is provided, then `BUG()`. -/
def mfs_destroy_inode (w : world) (_inode : mfs_inode_info) : kret Unit × world :=
  (.bug, printk w (.not_provided .mfs_destroy_inode))

/-- `mfs_write_inode`: logs, then `BUG()`; the `return 0` after it is not
reached. -/
def mfs_write_inode (w : world) (_inode : mfs_inode_info) : kret Int × world :=
  (.bug, printk w (.not_provided .mfs_write_inode))

/-- `mfs_drop_inode`: logs, then `BUG()`; the `return 0` after it is not
reached. -/
def mfs_drop_inode (w : world) (_inode : mfs_inode_info) : kret Int × world :=
  (.bug, printk w (.not_provided .mfs_drop_inode))

/-- `mfs_evict_inode`: logs, then `BUG()`. -/
def mfs_evict_inode (w : world) (_inode : mfs_inode_info) : kret Unit × world :=
  (.bug, printk w (.not_provided .mfs_evict_inode))


/-! ## Derived notions -/

/-- The object `iget_locked` hashes for a number that was not in the cache. -/
def new_inode (obj : mfs_inode_info) (ino : Nat) : mfs_inode_info :=
  { inode_init_always obj with vfs_inode.i_ino := ino, vfs_inode.i_state := I_NEW }

/-- A call comes back to its caller: with a value or with an error code. -/
def kret.returns {α : Type} : kret α → Bool
  | .ok _ => true
  | .err _ => true
  | .blocked => false
  | .bug => false

/-- The value carried by `kret.ok`, or `d`. -/
def kret.get {α : Type} (d : α) : kret α → α
  | .ok a => a
  | _ => d

/-! ## Sample data

Constants, records and states used to evaluate the functions on concrete
inputs. With these constants inode `ino` lives in block `ino / 4 + 2`. -/

def K_ex : mfs_consts :=
  { MFS_ROOT_INODE := 1, MFS_MAX_INODE := 31, MFS_ILIST_START_BLOCK_NUM := 2,
    MFS_IBLOCK_COUNT := 10, root_le_max := by decide }

/-- A record of the given mode; the other fields are fixed sample values. -/
def rec_ex (mode : Nat) : mfs_inode :=
  { mi_mode := to_u32 mode, mi_uid := to_u32 1000, mi_gid := to_u32 100,
    mi_links_count := to_u32 2, mi_size := to_u64 4096,
    mi_atime := ⟨1700000000, by norm_num⟩, mi_ctime := ⟨-5, by norm_num⟩,
    mi_mtime := ⟨1600000000, by norm_num⟩, mi_blocks := to_u32 8,
    mi_blk_add := fun i => 40 + i }

/-- One block of the inode list: a directory, a regular file, a block device
and a socket. -/
def data_ex : Nat → mfs_inode
  | 0 => rec_ex (S_IFDIR ||| 0o755)
  | 1 => rec_ex (S_IFREG ||| 0o644)
  | 2 => rec_ex (S_IFBLK ||| 0o660)
  | _ => rec_ex (S_IFSOCK ||| 0o600)

/-- A free slab object with stale contents. -/
def obj_ex : mfs_inode_info :=
  { mi_blk_add := fun _ => 7,
    vfs_inode :=
      { i_ino := 99, i_state := 0, i_count := 0, i_mode := to_u16 0o777, i_uid := to_u32 1,
        i_gid := to_u32 1, i_nlink := to_u32 0, i_size := to_s64 3, i_atime := ⟨1, 2⟩,
        i_ctime := ⟨3, 4⟩, i_mtime := ⟨5, 6⟩, i_blocks := to_u64 9, i_private := true,
        i_fop := .mfs_dir_ops, i_op := .mfs_dir_inops } }

/-- A device on which blocks 3 and 10 can be read and every other block gives
an I/O error. -/
def disk_ex (b : Nat) : Option (Nat → mfs_inode) :=
  if b = 3 ∨ b = 10 then some data_ex else none

/-- A state with an empty inode cache and two free slab objects. -/
def w_ex : world :=
  { icache := [], slab := [obj_ex, obj_ex], heap := 4, disk := disk_ex, reads := [],
    bufs := 0, klog := [] }

/-- A populated entry for inode 5, held by one reference. -/
def cached_ex : mfs_inode_info :=
  { mi_blk_add := fun i => 40 + i,
    vfs_inode :=
      { i_ino := 5, i_state := 0, i_count := 1, i_mode := to_u16 (S_IFREG ||| 0o644),
        i_uid := to_u32 1000, i_gid := to_u32 100, i_nlink := to_u32 2, i_size := to_s64 4096,
        i_atime := ⟨1700000000, 0⟩, i_ctime := ⟨-5, 0⟩, i_mtime := ⟨1600000000, 0⟩,
        i_blocks := to_u64 8, i_private := true, i_fop := .no_open_fops, i_op := .empty_iops } }

/-- A state whose cache holds the populated entry for inode 5. -/
def w_hit : world := { w_ex with icache := [cached_ex] }

/-- A block of the inode list whose first record has the mode word
`0x10000 | 0100644`, a value above the 16 bits of `umode_t`. -/
def data_wide : Nat → mfs_inode
  | 0 => rec_ex (0x10000 ||| 0o100644)
  | _ => rec_ex (S_IFREG ||| 0o644)

/-- A device on which only block 5 can be read; it holds `data_wide`. -/
def disk_wide (b : Nat) : Option (Nat → mfs_inode) :=
  if b = 5 then some data_wide else none

/-- The state `w_ex` on the device `disk_wide`. -/
def w_wide : world := { w_ex with disk := disk_wide }

/-! ## Auxiliary facts -/

/-- On a signed word the conversion `(signed)x` changes nothing. -/
theorem signed_cast_s32 (t : s32) : signed_cast t.val = t.val := by
  obtain ⟨v, h1, h2⟩ := t
  simp only [signed_cast]
  have h3 : (v + 2 ^ 31) % 2 ^ 32 = v + 2 ^ 31 := by
    apply Int.emod_eq_of_lt <;> omega
  omega

theorem I_NEW_ne_zero : I_NEW ≠ 0 := by decide

theorem to_u16_val (n : Nat) : (to_u16 n).val = n % 2 ^ 16 := rfl

/-- A value below `2^16` is stored in 16 bits unchanged. -/
theorem to_u16_val_of_lt (n : Nat) (h : n < 2 ^ 16) : (to_u16 n).val = n :=
  Nat.mod_eq_of_lt h

/-- A 32-bit value converted to 32 bits is itself. -/
theorem to_u32_self (x : u32) : to_u32 x.val = x :=
  Subtype.ext (Nat.mod_eq_of_lt x.property)

/-- A 32-bit value is stored in 64 bits unchanged. -/
theorem to_u64_val_of_u32 (x : u32) : (to_u64 x.val).val = x.val := by
  have h1 : x.val < 2 ^ 32 := x.property
  have h2 : x.val < 2 ^ 64 := by omega
  exact Nat.mod_eq_of_lt h2

/-- A value below `2^63` is stored in a signed 64-bit integer unchanged. -/
theorem to_s64_val_of_lt (n : Nat) (h : n < 2 ^ 63) : (to_s64 (n : Int)).val = (n : Int) := by
  show ((n : Int) + 2 ^ 63) % 2 ^ 64 - 2 ^ 63 = (n : Int)
  omega

/-- The test `ino < MFS_ROOT_INODE && ino > MFS_MAX_INODE` never holds. -/
theorem range_check_dead (K : mfs_consts) (ino : Nat) :
    ¬ (ino < K.MFS_ROOT_INODE ∧ ino > K.MFS_MAX_INODE) := by
  have := K.root_le_max
  omega

/-- The copy loop overwrites exactly the first `count` cells. -/
theorem copy_blk_add_apply (count : Nat) (src dst : Nat → Nat) (i : Nat) :
    copy_blk_add count src dst i = if i < count then src i else dst i := by
  induction count with
  | zero => simp [copy_blk_add]
  | succ n ih =>
    have hstep : copy_blk_add (n + 1) src dst i
        = if i = n then src n else copy_blk_add n src dst i := by
      simp [copy_blk_add, List.range_succ, List.foldl_append]
    rw [hstep, ih]
    by_cases h1 : i = n
    · subst h1; simp
    · by_cases h2 : i < n
      · have h3 : i < n + 1 := by omega
        simp [h1, h2, h3]
      · have h3 : ¬ i < n + 1 := by omega
        simp [h1, h2, h3]

theorem icache_find_ino (c : List mfs_inode_info) (ino : Nat) (e : mfs_inode_info)
    (h : icache_find c ino = some e) : e.vfs_inode.i_ino = ino := by
  induction c with
  | nil => simp [icache_find] at h
  | cons x rest ih =>
    simp only [icache_find] at h
    by_cases hx : x.vfs_inode.i_ino = ino
    · simp only [hx, if_true, Option.some.injEq] at h
      subst h; exact hx
    · simp only [hx, if_false] at h
      exact ih h

theorem icache_find_store (c : List mfs_inode_info) (e : mfs_inode_info)
    (h : (icache_find c e.vfs_inode.i_ino).isSome) :
    icache_find (icache_store c e) e.vfs_inode.i_ino = some e := by
  induction c with
  | nil => simp [icache_find] at h
  | cons x rest ih =>
    by_cases hx : x.vfs_inode.i_ino = e.vfs_inode.i_ino
    · simp [icache_store, icache_find, hx]
    · simp only [icache_find, hx, if_false] at h
      simp [icache_store, icache_find, hx, ih h]

theorem icache_find_store_other (c : List mfs_inode_info) (e : mfs_inode_info) (j : Nat)
    (h : j ≠ e.vfs_inode.i_ino) :
    icache_find (icache_store c e) j = icache_find c j := by
  induction c with
  | nil => simp [icache_store]
  | cons x rest ih =>
    by_cases hx : x.vfs_inode.i_ino = e.vfs_inode.i_ino
    · have h1 : ¬ e.vfs_inode.i_ino = j := fun hh => h hh.symm
      have h2 : ¬ x.vfs_inode.i_ino = j := fun hh => h (hh.symm.trans hx)
      simp [icache_store, icache_find, hx, h1] 
    · simp [icache_store, icache_find, hx, ih]

theorem icache_store_length (c : List mfs_inode_info) (e : mfs_inode_info) :
    (icache_store c e).length = c.length := by
  induction c with
  | nil => simp [icache_store]
  | cons x rest ih =>
    by_cases hx : x.vfs_inode.i_ino = e.vfs_inode.i_ino <;> simp [icache_store, hx, ih]

theorem iget_locked_miss (w : world) (ino : Nat) (obj : mfs_inode_info)
    (rest : List mfs_inode_info)
    (hmiss : icache_find w.icache ino = none) (hslab : w.slab = obj :: rest) :
    iget_locked w ino =
      (.inode (new_inode obj ino),
        { w with icache := new_inode obj ino :: w.icache, slab := rest,
                 klog := w.klog ++ [.not_provided .mfs_alloc_inode] }) := by
  simp [iget_locked, hmiss, mfs_alloc_inode, kmem_cache_alloc, printk, hslab, new_inode]

/-- Cache hit on a populated entry. -/
theorem mfs_iget_hit (K : mfs_consts) (w : world) (ino : Nat) (e : mfs_inode_info)
    (hfind : icache_find w.icache ino = some e)
    (hstate : e.vfs_inode.i_state &&& I_NEW = 0) :
    mfs_iget K w ino =
      (.ok { e with vfs_inode.i_count := e.vfs_inode.i_count + 1 },
        { w with icache :=
            icache_store w.icache { e with vfs_inode.i_count := e.vfs_inode.i_count + 1 } }) := by
  simp [mfs_iget, iget_locked, hfind, hstate]

/-- Cache hit on an entry that is still `I_NEW`: the caller sleeps. -/
theorem mfs_iget_sleeps (K : mfs_consts) (w : world) (ino : Nat) (e : mfs_inode_info)
    (hfind : icache_find w.icache ino = some e)
    (hstate : e.vfs_inode.i_state &&& I_NEW ≠ 0) :
    mfs_iget K w ino = (.blocked, w) := by
  simp [mfs_iget, iget_locked, hfind, hstate]

/-- No entry and no free object: `-ENOMEM`. -/
theorem mfs_iget_nomem (K : mfs_consts) (w : world) (ino : Nat)
    (hmiss : icache_find w.icache ino = none) (hslab : w.slab = []) :
    mfs_iget K w ino = (.err ENOMEM, printk w (.not_provided .mfs_alloc_inode)) := by
  simp [mfs_iget, iget_locked, hmiss, mfs_alloc_inode, kmem_cache_alloc, printk, hslab]

/-- No entry, and the block read fails: `-EIO`, with the new entry left hashed. -/
theorem mfs_iget_read_error (K : mfs_consts) (w : world) (ino : Nat) (obj : mfs_inode_info)
    (rest : List mfs_inode_info)
    (hmiss : icache_find w.icache ino = none) (hslab : w.slab = obj :: rest)
    (hdisk : w.disk (mfs_iget_block K ino) = none) :
    mfs_iget K w ino =
      (.err EIO,
        { w with icache := new_inode obj ino :: w.icache, slab := rest,
                 reads := w.reads ++ [mfs_iget_block K ino],
                 klog := w.klog ++ [.not_provided .mfs_alloc_inode,
                   .block_offset (mfs_iget_block K ino) (mfs_iget_offset ino)] }) := by
  have hr := range_check_dead K ino
  simp [mfs_iget, iget_locked_miss w ino obj rest hmiss hslab, new_inode, I_NEW_ne_zero,
    hr, sb_bread, printk, hdisk]

/-- No entry, and the block read succeeds: the new inode is filled from slot
`ino % 4` of the block, unlocked and returned. -/
theorem mfs_iget_load (K : mfs_consts) (w : world) (ino : Nat) (obj : mfs_inode_info)
    (rest : List mfs_inode_info) (data : Nat → mfs_inode)
    (hmiss : icache_find w.icache ino = none) (hslab : w.slab = obj :: rest)
    (hdisk : w.disk (mfs_iget_block K ino) = some data) :
    ∃ p w1, mfs_iget K w ino = (.ok p, w1)
      ∧ p.vfs_inode.i_ino = ino
      ∧ p.vfs_inode.i_state = 0
      ∧ p.vfs_inode.i_mode = to_u16 (data (ino % 4)).mi_mode.val
      ∧ p.vfs_inode.i_uid = (data (ino % 4)).mi_uid
      ∧ p.vfs_inode.i_gid = (data (ino % 4)).mi_gid
      ∧ p.vfs_inode.i_nlink = (data (ino % 4)).mi_links_count
      ∧ p.vfs_inode.i_size = to_s64 (data (ino % 4)).mi_size.val
      ∧ p.vfs_inode.i_atime.tv_sec = (data (ino % 4)).mi_atime.val
      ∧ p.vfs_inode.i_ctime.tv_sec = (data (ino % 4)).mi_ctime.val
      ∧ p.vfs_inode.i_mtime.tv_sec = (data (ino % 4)).mi_mtime.val
      ∧ p.vfs_inode.i_blocks = to_u64 (data (ino % 4)).mi_blocks.val
      ∧ p.mi_blk_add
          = copy_blk_add K.MFS_IBLOCK_COUNT (data (ino % 4)).mi_blk_add obj.mi_blk_add
      ∧ p.vfs_inode.i_fop
          = (if (data (ino % 4)).mi_mode.val % 2 ^ 16 &&& S_IFDIR ≠ 0 then .mfs_dir_ops
              else .no_open_fops)
      ∧ p.vfs_inode.i_op
          = (if (data (ino % 4)).mi_mode.val % 2 ^ 16 &&& S_IFDIR ≠ 0 then .mfs_dir_inops
              else .empty_iops)
      ∧ w1.reads = w.reads ++ [mfs_iget_block K ino]
      ∧ w1.icache = p :: w.icache := by
  have hr := range_check_dead K ino
  by_cases hdir : (to_u16 (data (mfs_iget_offset ino)).mi_mode.val).val &&& S_IFDIR = 0
  · simp only [mfs_iget, iget_locked_miss w ino obj rest hmiss hslab, new_inode, I_NEW_ne_zero,
      Nat.and_self, if_false, hr, sb_bread, printk, hdisk, kmalloc, GET_MFS_INODE, i_uid_write,
      i_gid_write, set_nlink, hdir, ne_eq, not_true_eq_false]
    refine ⟨_, _, rfl, ?_⟩
    have hdir2 : (data (ino % 4)).mi_mode.val % 65536 &&& S_IFDIR = 0 := hdir
    simp [unlock_new_inode, brelse, mfs_iget_offset, signed_cast_s32, inode_init_always,
      icache_store, hdir2, to_u32_self]
  · simp only [mfs_iget, iget_locked_miss w ino obj rest hmiss hslab, new_inode, I_NEW_ne_zero,
      Nat.and_self, if_false, hr, sb_bread, printk, hdisk, kmalloc, GET_MFS_INODE, i_uid_write,
      i_gid_write, set_nlink, hdir, ne_eq, not_false_eq_true, if_true]
    refine ⟨_, _, rfl, ?_⟩
    have hdir2 : ¬ ((data (ino % 4)).mi_mode.val % 65536 &&& S_IFDIR = 0) := hdir
    simp [unlock_new_inode, brelse, mfs_iget_offset, signed_cast_s32, inode_init_always,
      icache_store, hdir2, to_u32_self]

/-- No call of `mfs_iget` returns `-EINVAL`. -/
theorem mfs_iget_never_einval (K : mfs_consts) (w : world) (ino : Nat) :
    (mfs_iget K w ino).1 ≠ .err EINVAL := by
  cases hfind : icache_find w.icache ino with
  | some e =>
    by_cases hstate : e.vfs_inode.i_state &&& I_NEW = 0
    · rw [mfs_iget_hit K w ino e hfind hstate]; simp
    · rw [mfs_iget_sleeps K w ino e hfind hstate]; simp
  | none =>
    cases hslab : w.slab with
    | nil => rw [mfs_iget_nomem K w ino hfind hslab]; simp [ENOMEM, EINVAL]
    | cons obj rest =>
      cases hdisk : w.disk (mfs_iget_block K ino) with
      | none => rw [mfs_iget_read_error K w ino obj rest hfind hslab hdisk]; simp [ EIO, EINVAL]
      | some data =>
        obtain ⟨p, w1, h, -⟩ := mfs_iget_load K w ino obj rest data hfind hslab hdisk
        rw [h]; simp

/-! ## The claims -/

/-- C2. The address computation of `mfs_iget`: for every inode number the block
is `MFS_ILIST_START_BLOCK_NUM + ino / 4` and the slot is `ino % 4`, a number
below 4, so that `ino = 4 * (block - start) + slot`; with start block `B`,
inodes 0, 3 and 4 are at `(B, 0)`, `(B, 3)` and `(B + 1, 0)`. A call of
`mfs_iget` passes no other block to `sb_bread`: it reads nothing, or that one
block. -/
theorem mfs_iget_address (K : mfs_consts) (ino : Nat) :
    mfs_iget_block K ino = K.MFS_ILIST_START_BLOCK_NUM + ino / 4
      ∧ mfs_iget_offset ino = ino % 4
      ∧ mfs_iget_offset ino < 4
      ∧ ino = 4 * (mfs_iget_block K ino - K.MFS_ILIST_START_BLOCK_NUM) + mfs_iget_offset ino
      ∧ (mfs_iget_block K 0, mfs_iget_offset 0) = (K.MFS_ILIST_START_BLOCK_NUM, 0)
      ∧ (mfs_iget_block K 3, mfs_iget_offset 3) = (K.MFS_ILIST_START_BLOCK_NUM, 3)
      ∧ (mfs_iget_block K 4, mfs_iget_offset 4) = (K.MFS_ILIST_START_BLOCK_NUM + 1, 0)
      ∧ ∀ w : world, (mfs_iget K w ino).2.reads = w.reads
          ∨ (mfs_iget K w ino).2.reads
              = w.reads ++ [K.MFS_ILIST_START_BLOCK_NUM + ino / 4] := by
  have hb : mfs_iget_block K ino = K.MFS_ILIST_START_BLOCK_NUM + ino / 4 := by
    simp only [mfs_iget_block]; omega
  refine ⟨hb, rfl, ?_, ?_, ?_, ?_, ?_, ?_⟩
  · simp only [mfs_iget_offset]; omega
  · simp only [mfs_iget_block, mfs_iget_offset]; omega
  · simp [mfs_iget_block, mfs_iget_offset]
  · simp [mfs_iget_block, mfs_iget_offset]
  · simp [mfs_iget_block, mfs_iget_offset, Nat.add_comm]
  · intro w
    rw [← hb]
    cases hfind : icache_find w.icache ino with
    | some e =>
      by_cases hstate : e.vfs_inode.i_state &&& I_NEW = 0
      · left; rw [mfs_iget_hit K w ino e hfind hstate]
      · left; rw [mfs_iget_sleeps K w ino e hfind hstate]
    | none =>
      cases hslab : w.slab with
      | nil => left; rw [mfs_iget_nomem K w ino hfind hslab]; rfl
      | cons obj rest =>
        cases hdisk : w.disk (mfs_iget_block K ino) with
        | none => right; rw [mfs_iget_read_error K w ino obj rest hfind hslab hdisk]
        | some data =>
          obtain ⟨p, w1, h, -, -, -, -, -, -, -, -, -, -, -, -, -, -, hreads, -⟩ :=
            mfs_iget_load K w ino obj rest data hfind hslab hdisk
          right; rw [h]; exact hreads

/-- C3 fails on the code: the first record of block 5 of the device
`disk_wide` has the mode word `0x10000 | 0100644` (98724); the first lookup of
inode 12 reads that block, succeeds, and returns an inode whose `i_mode` is
33188 (`0100644`), not the value of the record's mode field. -/
theorem mfs_iget_mode_truncated_on_sample :
    icache_find w_wide.icache 12 = none
      ∧ w_wide.disk (K_ex.MFS_ILIST_START_BLOCK_NUM + 12 / 4) = some data_wide
      ∧ (data_wide (12 % 4)).mi_mode.val = 98724
      ∧ ∃ p w1, mfs_iget K_ex w_wide 12 = (.ok p, w1)
          ∧ p.vfs_inode.i_mode.val = 33188
          ∧ p.vfs_inode.i_mode.val ≠ (data_wide (12 % 4)).mi_mode.val := by
  refine ⟨rfl, rfl, rfl, ?_⟩
  obtain ⟨p, w1, h, -, -, hm, -⟩ :=
    mfs_iget_load K_ex w_wide 12 obj_ex [obj_ex] data_wide rfl rfl rfl
  refine ⟨p, w1, h, ?_, ?_⟩
  · rw [hm]; rfl
  · rw [hm]; decide

/-- C3 as amended. When inode `ino` is not in the cache, a free object is
available and the read of its block succeeds, `mfs_iget` returns an inode
whose attributes come from the on-disk record in slot `ino % 4` of the block
that was read: user id, group id, link count, block count and the seconds of
the access, change and modification time are exactly the values of the
record's fields (the seconds are the signed number stored); the mode is the
record's mode word reduced to the 16 bits of `i_mode`, hence the field's value
whenever that is below `2^16`; the size is the record's size converted to the
signed 64-bit `i_size`, hence the field's value whenever that is below
`2^63`. -/
theorem mfs_iget_copies_attributes (K : mfs_consts) (w : world) (ino : Nat)
    (obj : mfs_inode_info) (rest : List mfs_inode_info) (data : Nat → mfs_inode)
    (hmiss : icache_find w.icache ino = none) (hslab : w.slab = obj :: rest)
    (hdisk : w.disk (K.MFS_ILIST_START_BLOCK_NUM + ino / 4) = some data) :
    ∃ p w1, mfs_iget K w ino = (.ok p, w1)
      ∧ w1.reads = w.reads ++ [K.MFS_ILIST_START_BLOCK_NUM + ino / 4]
      ∧ p.vfs_inode.i_mode.val = (data (ino % 4)).mi_mode.val % 2 ^ 16
      ∧ ((data (ino % 4)).mi_mode.val < 2 ^ 16 →
          p.vfs_inode.i_mode.val = (data (ino % 4)).mi_mode.val)
      ∧ p.vfs_inode.i_uid.val = (data (ino % 4)).mi_uid.val
      ∧ p.vfs_inode.i_gid.val = (data (ino % 4)).mi_gid.val
      ∧ p.vfs_inode.i_nlink.val = (data (ino % 4)).mi_links_count.val
      ∧ p.vfs_inode.i_size = to_s64 (data (ino % 4)).mi_size.val
      ∧ ((data (ino % 4)).mi_size.val < 2 ^ 63 →
          p.vfs_inode.i_size.val = ((data (ino % 4)).mi_size.val : Int))
      ∧ p.vfs_inode.i_atime.tv_sec = (data (ino % 4)).mi_atime.val
      ∧ p.vfs_inode.i_ctime.tv_sec = (data (ino % 4)).mi_ctime.val
      ∧ p.vfs_inode.i_mtime.tv_sec = (data (ino % 4)).mi_mtime.val
      ∧ p.vfs_inode.i_blocks.val = (data (ino % 4)).mi_blocks.val := by
  have hb : mfs_iget_block K ino = K.MFS_ILIST_START_BLOCK_NUM + ino / 4 := by
    simp only [mfs_iget_block]; omega
  rw [← hb] at hdisk ⊢
  obtain ⟨p, w1, h, -, -, h1, h2, h3, h4, h5, h6, h7, h8, h9, -, -, -, hreads, -⟩ :=
    mfs_iget_load K w ino obj rest data hmiss hslab hdisk
  refine ⟨p, w1, h, hreads, ?_, ?_, ?_, ?_, ?_, h5, ?_, h6, h7, h8, ?_⟩
  · rw [h1]; rfl
  · intro hlt; rw [h1]; exact to_u16_val_of_lt _ hlt
  · rw [h2]
  · rw [h3]
  · rw [h4]
  · intro hlt; rw [h5]; exact to_s64_val_of_lt _ hlt
  · rw [h9]; exact to_u64_val_of_u32 _

/-- Witness of C3: inode 5 of the sample device is a regular file whose change
time is five seconds before the epoch. -/
theorem mfs_iget_copies_attributes_witness :
    ∃ p w1, mfs_iget K_ex w_ex 5 = (.ok p, w1)
      ∧ w1.reads = [3]
      ∧ p.vfs_inode.i_mode.val = 0o100644
      ∧ p.vfs_inode.i_uid.val = 1000
      ∧ p.vfs_inode.i_gid.val = 100
      ∧ p.vfs_inode.i_nlink.val = 2
      ∧ p.vfs_inode.i_size.val = 4096
      ∧ p.vfs_inode.i_atime.tv_sec = 1700000000
      ∧ p.vfs_inode.i_ctime.tv_sec = -5
      ∧ p.vfs_inode.i_mtime.tv_sec = 1600000000
      ∧ p.vfs_inode.i_blocks.val = 8 := by
  obtain ⟨p, w1, h, hr, -, hm, hu, hg, hn, -, hs, ha, hc, ht, hbk⟩ :=
    mfs_iget_copies_attributes K_ex w_ex 5 obj_ex [obj_ex] data_ex rfl rfl rfl
  exact ⟨p, w1, h, hr, hm (by decide), hu, hg, hn, hs (by decide), ha, hc, ht, hbk⟩

/-- C4. When inode `ino` is not in the cache, a free object is available and
the read of its block succeeds, the block address array of the inode that
`mfs_iget` returns agrees with the array of the on-disk record in slot
`ino % 4` at every index below `MFS_IBLOCK_COUNT`. -/
theorem mfs_iget_copies_blk_add (K : mfs_consts) (w : world) (ino : Nat)
    (obj : mfs_inode_info) (rest : List mfs_inode_info) (data : Nat → mfs_inode)
    (hmiss : icache_find w.icache ino = none) (hslab : w.slab = obj :: rest)
    (hdisk : w.disk (K.MFS_ILIST_START_BLOCK_NUM + ino / 4) = some data) :
    ∃ p w1, mfs_iget K w ino = (.ok p, w1)
      ∧ ∀ i, i < K.MFS_IBLOCK_COUNT → p.mi_blk_add i = (data (ino % 4)).mi_blk_add i := by
  have hb : mfs_iget_block K ino = K.MFS_ILIST_START_BLOCK_NUM + ino / 4 := by
    simp only [mfs_iget_block]; omega
  rw [← hb] at hdisk
  obtain ⟨p, w1, h, -, -, -, -, -, -, -, -, -, -, -, hblk, -, -, -, -⟩ :=
    mfs_iget_load K w ino obj rest data hmiss hslab hdisk
  refine ⟨p, w1, h, ?_⟩
  intro i hi
  rw [hblk, copy_blk_add_apply, if_pos hi]

/-- Witness of C4: the ten block addresses of inode 5 of the sample device. -/
theorem mfs_iget_copies_blk_add_witness :
    ∃ p w1, mfs_iget K_ex w_ex 5 = (.ok p, w1)
      ∧ ∀ i, i < 10 → p.mi_blk_add i = 40 + i :=
  mfs_iget_copies_blk_add K_ex w_ex 5 obj_ex [obj_ex] data_ex rfl rfl rfl

/-- C6. When the cache holds an entry for `ino` that is not `I_NEW`, `mfs_iget`
returns that entry with one more reference and nothing else changed: mode,
owner ids, link count, size, timestamps, block count, operation tables, state
and block address array are as before, `sb_bread` is not called, no object is
allocated, and the cache holds the same entries under the same numbers. -/
theorem mfs_iget_cache_hit (K : mfs_consts) (w : world) (ino : Nat) (e : mfs_inode_info)
    (hfind : icache_find w.icache ino = some e)
    (hstate : e.vfs_inode.i_state &&& I_NEW = 0) :
    ∃ p w1, mfs_iget K w ino = (.ok p, w1)
      ∧ p = { e with vfs_inode.i_count := e.vfs_inode.i_count + 1 }
      ∧ icache_find w1.icache ino = some p
      ∧ w1.icache.length = w.icache.length
      ∧ (∀ j, j ≠ ino → icache_find w1.icache j = icache_find w.icache j)
      ∧ w1.reads = w.reads
      ∧ w1.slab = w.slab
      ∧ p.mi_blk_add = e.mi_blk_add
      ∧ p.vfs_inode.i_ino = e.vfs_inode.i_ino
      ∧ p.vfs_inode.i_state = e.vfs_inode.i_state
      ∧ p.vfs_inode.i_mode = e.vfs_inode.i_mode
      ∧ p.vfs_inode.i_uid = e.vfs_inode.i_uid
      ∧ p.vfs_inode.i_gid = e.vfs_inode.i_gid
      ∧ p.vfs_inode.i_nlink = e.vfs_inode.i_nlink
      ∧ p.vfs_inode.i_size = e.vfs_inode.i_size
      ∧ p.vfs_inode.i_atime = e.vfs_inode.i_atime
      ∧ p.vfs_inode.i_ctime = e.vfs_inode.i_ctime
      ∧ p.vfs_inode.i_mtime = e.vfs_inode.i_mtime
      ∧ p.vfs_inode.i_blocks = e.vfs_inode.i_blocks
      ∧ p.vfs_inode.i_fop = e.vfs_inode.i_fop
      ∧ p.vfs_inode.i_op = e.vfs_inode.i_op := by
  have hino : e.vfs_inode.i_ino = ino := icache_find_ino w.icache ino e hfind
  subst hino
  refine ⟨_, _, mfs_iget_hit K w _ e hfind hstate, rfl, ?_, ?_, ?_, rfl, rfl, rfl, rfl, rfl,
    rfl, rfl, rfl, rfl, rfl, rfl, rfl, rfl, rfl, rfl, rfl⟩
  · exact icache_find_store w.icache
      { e with vfs_inode.i_count := e.vfs_inode.i_count + 1 }
      (by show (icache_find w.icache e.vfs_inode.i_ino).isSome = true
          rw [hfind]; rfl)
  · exact icache_store_length _ _
  · intro j hj
    exact icache_find_store_other w.icache
      { e with vfs_inode.i_count := e.vfs_inode.i_count + 1 } j hj

/-- Witness of C6: a second lookup of the cached inode 5. -/
theorem mfs_iget_cache_hit_witness :
    ∃ p w1, mfs_iget K_ex w_hit 5 = (.ok p, w1)
      ∧ p.vfs_inode.i_count = 2
      ∧ p.vfs_inode.i_size.val = 4096
      ∧ icache_find w1.icache 5 = some p
      ∧ w1.icache.length = 1
      ∧ w1.reads = [] := by
  obtain ⟨p, w1, h, hp, hf, hl, -, hr, -⟩ := mfs_iget_cache_hit K_ex w_hit 5 cached_ex rfl rfl
  refine ⟨p, w1, h, ?_, ?_, hf, hl, hr⟩
  · rw [hp]; rfl
  · rw [hp]; rfl

/-- C8. Every inode that `mfs_iget` returns has `I_NEW` clear, whether it was
found in the cache or filled from the device. -/
theorem mfs_iget_returns_populated (K : mfs_consts) (w : world) (ino : Nat)
    (p : mfs_inode_info) (w1 : world) (h : mfs_iget K w ino = (.ok p, w1)) :
    p.vfs_inode.i_state &&& I_NEW = 0 := by
  cases hfind : icache_find w.icache ino with
  | some e =>
    by_cases hstate : e.vfs_inode.i_state &&& I_NEW = 0
    · rw [mfs_iget_hit K w ino e hfind hstate] at h
      simp only [Prod.mk.injEq, kret.ok.injEq] at h
      rw [← h.1]
      exact hstate
    · rw [mfs_iget_sleeps K w ino e hfind hstate] at h
      simp at h
  | none =>
    cases hslab : w.slab with
    | nil =>
      rw [mfs_iget_nomem K w ino hfind hslab] at h
      simp at h
    | cons obj rest =>
      cases hdisk : w.disk (mfs_iget_block K ino) with
      | none =>
        rw [mfs_iget_read_error K w ino obj rest hfind hslab hdisk] at h
        simp at h
      | some data =>
        obtain ⟨q, w2, hq, -, hst, -⟩ := mfs_iget_load K w ino obj rest data hfind hslab hdisk
        rw [hq] at h
        simp only [Prod.mk.injEq, kret.ok.injEq] at h
        rw [← h.1, hst]
        rfl

/-- Witness of C8: the inode returned by the first lookup of inode 5 of the
sample device. -/
theorem mfs_iget_returns_populated_witness :
    (mfs_iget K_ex w_ex 5).1.returns = true
      ∧ ((mfs_iget K_ex w_ex 5).1.get obj_ex).vfs_inode.i_state &&& I_NEW = 0 :=
  ⟨rfl, mfs_iget_returns_populated K_ex w_ex 5 ((mfs_iget K_ex w_ex 5).1.get obj_ex)
    (mfs_iget K_ex w_ex 5).2 rfl⟩

/-- C1, the behaviour of the code. For an inode number below `MFS_ROOT_INODE`
or above `MFS_MAX_INODE` that is not in the cache (a free object being
available), `mfs_iget` does not fail with `-EINVAL`: it calls `sb_bread` on
block `MFS_ILIST_START_BLOCK_NUM + ino / 4`. -/
theorem mfs_iget_out_of_range_reads (K : mfs_consts) (w : world) (ino : Nat)
    (obj : mfs_inode_info) (rest : List mfs_inode_info)
    (_hout : ino < K.MFS_ROOT_INODE ∨ K.MFS_MAX_INODE < ino)
    (hmiss : icache_find w.icache ino = none) (hslab : w.slab = obj :: rest) :
    (mfs_iget K w ino).1 ≠ .err EINVAL
      ∧ (mfs_iget K w ino).2.reads = w.reads ++ [K.MFS_ILIST_START_BLOCK_NUM + ino / 4] := by
  have hb : mfs_iget_block K ino = K.MFS_ILIST_START_BLOCK_NUM + ino / 4 := by
    simp only [mfs_iget_block]; omega
  refine ⟨mfs_iget_never_einval K w ino, ?_⟩
  rw [← hb]
  cases hdisk : w.disk (mfs_iget_block K ino) with
  | none => rw [mfs_iget_read_error K w ino obj rest hmiss hslab hdisk]
  | some data =>
    obtain ⟨p, w1, h, -, -, -, -, -, -, -, -, -, -, -, -, -, -, hreads, -⟩ :=
      mfs_iget_load K w ino obj rest data hmiss hslab hdisk
    rw [h]; exact hreads

/-- Evaluation for C1: with `MFS_MAX_INODE = 31`, the lookup of inode 32 reads
block 10 and succeeds. -/
theorem mfs_iget_out_of_range_reads_witness :
    K_ex.MFS_MAX_INODE < 32
      ∧ (mfs_iget K_ex w_ex 32).1 ≠ .err EINVAL
      ∧ (mfs_iget K_ex w_ex 32).2.reads = [10] :=
  ⟨by decide,
    mfs_iget_out_of_range_reads K_ex w_ex 32 obj_ex [obj_ex] (Or.inr (by decide)) rfl rfl⟩

/-- C5, the behaviour of the code. Inode 6 of the sample device is a block
device (its mode is `S_IFBLK | 0660`, not a directory), and `mfs_iget`
installs `mfs_dir_ops` and `mfs_dir_inops` on it; the same happens to the
socket in inode 7, while the regular file in inode 5 keeps the default
tables. -/
theorem mfs_iget_dir_ops_on_block_device :
    (∃ p w1, mfs_iget K_ex w_ex 6 = (.ok p, w1)
        ∧ p.vfs_inode.i_mode.val = S_IFBLK ||| 0o660
        ∧ ¬ S_ISDIR p.vfs_inode.i_mode.val
        ∧ p.vfs_inode.i_fop = .mfs_dir_ops
        ∧ p.vfs_inode.i_op = .mfs_dir_inops)
      ∧ (∃ p w1, mfs_iget K_ex w_ex 7 = (.ok p, w1)
        ∧ p.vfs_inode.i_mode.val = S_IFSOCK ||| 0o600
        ∧ ¬ S_ISDIR p.vfs_inode.i_mode.val
        ∧ p.vfs_inode.i_fop = .mfs_dir_ops
        ∧ p.vfs_inode.i_op = .mfs_dir_inops)
      ∧ (∃ p w1, mfs_iget K_ex w_ex 5 = (.ok p, w1)
        ∧ p.vfs_inode.i_mode.val = S_IFREG ||| 0o644
        ∧ p.vfs_inode.i_fop = .no_open_fops
        ∧ p.vfs_inode.i_op = .empty_iops) := by
  refine ⟨?_, ?_, ?_⟩
  · obtain ⟨p, w1, h, -, -, hm, -, -, -, -, -, -, -, -, -, hf, ho, -⟩ :=
      mfs_iget_load K_ex w_ex 6 obj_ex [obj_ex] data_ex rfl rfl rfl
    refine ⟨p, w1, h, ?_, ?_, ?_, ?_⟩
    · rw [hm]; rfl
    · rw [hm]; decide
    · rw [hf]; decide
    · rw [ho]; decide
  · obtain ⟨p, w1, h, -, -, hm, -, -, -, -, -, -, -, -, -, hf, ho, -⟩ :=
      mfs_iget_load K_ex w_ex 7 obj_ex [obj_ex] data_ex rfl rfl rfl
    refine ⟨p, w1, h, ?_, ?_, ?_, ?_⟩
    · rw [hm]; rfl
    · rw [hm]; decide
    · rw [hf]; decide
    · rw [ho]; decide
  · obtain ⟨p, w1, h, -, -, hm, -, -, -, -, -, -, -, -, -, hf, ho, -⟩ :=
      mfs_iget_load K_ex w_ex 5 obj_ex [obj_ex] data_ex rfl rfl rfl
    refine ⟨p, w1, h, ?_, ?_, ?_⟩
    · rw [hm]; rfl
    · rw [hf]; decide
    · rw [ho]; decide

/-- C7, the behaviour of the code. When inode `ino` is not in the cache, a
free object is available and the read of its block fails, `mfs_iget` fails
with `-EIO` and the entry it created stays in the cache under `ino`, still
`I_NEW`; the next `mfs_iget` of the same number sleeps on it. -/
theorem mfs_iget_read_failure_leaves_entry (K : mfs_consts) (w : world) (ino : Nat)
    (obj : mfs_inode_info) (rest : List mfs_inode_info)
    (hmiss : icache_find w.icache ino = none) (hslab : w.slab = obj :: rest)
    (hdisk : w.disk (K.MFS_ILIST_START_BLOCK_NUM + ino / 4) = none) :
    (mfs_iget K w ino).1 = .err EIO
      ∧ (∃ e, icache_find (mfs_iget K w ino).2.icache ino = some e
          ∧ e.vfs_inode.i_state &&& I_NEW ≠ 0)
      ∧ (mfs_iget K (mfs_iget K w ino).2 ino).1 = .blocked := by
  have hb : mfs_iget_block K ino = K.MFS_ILIST_START_BLOCK_NUM + ino / 4 := by
    simp only [mfs_iget_block]; omega
  rw [← hb] at hdisk
  have hnew : (new_inode obj ino).vfs_inode.i_state &&& I_NEW ≠ 0 := by
    show I_NEW &&& I_NEW ≠ 0
    decide
  have hf : icache_find (mfs_iget K w ino).2.icache ino = some (new_inode obj ino) := by
    rw [mfs_iget_read_error K w ino obj rest hmiss hslab hdisk]
    simp [icache_find, new_inode]
  refine ⟨?_, ⟨new_inode obj ino, hf, hnew⟩, ?_⟩
  · rw [mfs_iget_read_error K w ino obj rest hmiss hslab hdisk]
  · rw [mfs_iget_sleeps K _ ino (new_inode obj ino) hf hnew]

/-- Evaluation for C7: block 4 of the sample device cannot be read; after the
failed lookup of inode 9 the cache has one entry, for inode 9. -/
theorem mfs_iget_read_failure_leaves_entry_witness :
    (mfs_iget K_ex w_ex 9).1 = .err EIO
      ∧ (∃ e, icache_find (mfs_iget K_ex w_ex 9).2.icache 9 = some e
          ∧ e.vfs_inode.i_state &&& I_NEW ≠ 0)
      ∧ (mfs_iget K_ex (mfs_iget K_ex w_ex 9).2 9).1 = .blocked :=
  mfs_iget_read_failure_leaves_entry K_ex w_ex 9 obj_ex [obj_ex] rfl rfl rfl

/-- C9 fails on the code: on the cached sample inode none of write-back, drop,
evict and destroy returns to its caller; each ends in `BUG()`, evict already
at its first invocation. -/
theorem lifecycle_ops_bug_on_sample :
    (mfs_write_inode w_hit cached_ex).1.returns = false
      ∧ (mfs_drop_inode w_hit cached_ex).1.returns = false
      ∧ (mfs_evict_inode w_hit cached_ex).1.returns = false
      ∧ (mfs_destroy_inode w_hit cached_ex).1.returns = false :=
  ⟨rfl, rfl, rfl, rfl⟩

/-- C9 as amended. For every state and every entry, each of `mfs_write_inode`,
`mfs_drop_inode`, `mfs_evict_inode` and `mfs_destroy_inode` logs that its
implementation is not provided and ends in `BUG()`: it does not return to its
caller, and the inode cache, the slab and the device reads are left as they
were. -/
theorem lifecycle_ops_are_bug_stubs (w : world) (e : mfs_inode_info) :
    ((mfs_write_inode w e).1 = .bug
        ∧ (mfs_write_inode w e).2 = { w with klog := w.klog ++ [.not_provided .mfs_write_inode] })
      ∧ ((mfs_drop_inode w e).1 = .bug
        ∧ (mfs_drop_inode w e).2 = { w with klog := w.klog ++ [.not_provided .mfs_drop_inode] })
      ∧ ((mfs_evict_inode w e).1 = .bug
        ∧ (mfs_evict_inode w e).2 = { w with klog := w.klog ++ [.not_provided .mfs_evict_inode] })
      ∧ ((mfs_destroy_inode w e).1 = .bug
        ∧ (mfs_destroy_inode w e).2
            = { w with klog := w.klog ++ [.not_provided .mfs_destroy_inode] }) :=
  ⟨⟨rfl, rfl⟩, ⟨rfl, rfl⟩, ⟨rfl, rfl⟩, ⟨rfl, rfl⟩⟩

end MicroFS
